import Mathlib

/-!
Verification of the nblint dispatch engine and status model
(`tools/tensorflow_docs/tools/nblint/linter.py`).

The engine is shallowly embedded: JSON values are an inductive type,
Python exceptions (`TypeError`, `AttributeError`, `KeyError`,
`SystemExit`, generic `Exception`) become an `Except PyErr` monad, and
`json.loads` is treated as an external collaborator whose outcome
(`Option Json`, `none` for a `JSONDecodeError`/`ValueError`) is an input
of `Linter.run` together with the raw source text and the path.
-/

/-- A parsed JSON value, the result of `json.loads`.  Objects are ordered
key/value lists (JSON objects produced by parsing have unique keys). -/
inductive Json where
  | null : Json
  | bool (b : Bool) : Json
  | num (n : Int) : Json
  | str (s : String) : Json
  | arr (xs : List Json) : Json
  | obj (kvs : List (String × Json)) : Json

/-- `d.get(k)` on a JSON object's key/value list. -/
def jlookup (kvs : List (String × Json)) (k : String) : Option Json :=
  match kvs with
  | [] => none
  | (k', v) :: rest => if k' = k then some v else jlookup rest k

/-- A Python value as returned by a lint callback: the engine only
checks `isinstance(x, bool)`, so we distinguish bools from a few other
representative runtime values. -/
inductive PyVal where
  | bool (b : Bool) : PyVal
  | str (s : String) : PyVal
  | int (n : Int) : PyVal
  | none : PyVal
  deriving DecidableEq, Repr

/-- `isinstance(v, bool)`. -/
def PyVal.isBool : PyVal → Bool
  | .bool _ => true
  | _ => false

/-- Python `str(v)` as used by the f-string in `add_entry`. -/
def PyVal.pyStr : PyVal → String
  | .bool true => "True"
  | .bool false => "False"
  | .str s => s
  | .int n => toString n
  | .none => "None"

/-- The boolean carried by a `PyVal.bool`; meaningful only under an
`isBool` hypothesis (the engine raises before using anything else). -/
def PyVal.asBool : PyVal → Bool
  | .bool b => b
  | _ => false

/-- Python truthiness of a `PyVal` (used by `any`/`all` over the
collected per-cell results). -/
def PyVal.truthy : PyVal → Bool
  | .bool b => b
  | .str s => !s.isEmpty
  | .int n => decide (n ≠ 0)
  | .none => false

/-- A Python exception escaping the engine, or `sys.exit`. -/
inductive PyErr where
  | typeError (msg : String) : PyErr
  | keyError : PyErr
  | attributeError : PyErr
  | exception (msg : String) : PyErr
  | systemExit (code : Nat) : PyErr
  deriving DecidableEq, Repr

/-- `decorator.Options.Scope`.  Modelled from the spec: the `decorator`
module is not part of the sources; the spec lists the recognized scope
values `FILE | CELLS | CODE | TEXT`. -/
inductive Scope where
  | file : Scope
  | cells : Scope
  | code : Scope
  | text : Scope
  deriving DecidableEq, Repr

/-- `decorator.Options.Cond`.  Modelled from the spec: the `decorator`
module is not part of the sources; the spec lists the recognized
condition values `ANY | ALL`, in that order (the order matters because
`Linter.run` iterates the enum). -/
inductive Cond where
  | anyC : Cond
  | allC : Cond
  deriving DecidableEq, Repr

/-- Notebook paths only flow into callbacks and reports. -/
abbrev NbPath := String

/-- `decorator.Lint`.  Modelled from the spec: the `decorator` module is
not part of the sources.  A Rule Definition is an immutable descriptor
with a unique name, an optional human-readable message, a declared
scope, a declared condition, the owning style module's identifier, and a
callback from (content, cell-or-document, source-path) to a runtime
value; `lint.run` invokes the callback. -/
structure Lint where
  name : String
  message : Option String
  style : String
  scope : Scope
  cond : Cond
  run : String → Json → NbPath → PyVal

/-- The lint dictionary passed to `Linter.run`: for each scope and
condition, the ordered list of rules registered under that key.
Modelled from the spec: the registry construction lives in the missing
`decorator` module; the spec describes it as a mapping keyed by
(scope, condition) to the ordered sequence of rules registered under
that key, registration order preserved. -/
def Registry := Scope → Cond → List Lint

/-- `LinterStatus.LintStatusEntry`. -/
structure LintStatusEntry where
  lint : Lint
  is_success : Bool
  name : String
  group : Option String
  is_group_entry : Bool

/-- `LinterStatus`: path, verbosity, and the ordered `_status_list`. -/
structure LinterStatus where
  path : NbPath
  verbose : Bool
  status_list : List LintStatusEntry

/-- `LinterStatus.add_entry`.  Raises `TypeError` when `is_success` is
not a Python bool; otherwise appends one entry, defaulting a missing or
falsy (empty) `name` to the lint's name. -/
def LinterStatus.add_entry (st : LinterStatus) (lint : Lint) (is_success : PyVal)
    (name : Option String := Option.none) (group : Option String := Option.none)
    (is_group_entry : Bool := false) : Except PyErr LinterStatus :=
  match is_success with
  | .bool b =>
    let nm := match name with
      | some s => if s.isEmpty then lint.name else s
      | Option.none => lint.name
    Except.ok { st with status_list :=
      st.status_list ++ [⟨lint, b, nm, group, is_group_entry⟩] }
  | v => Except.error (.typeError ("Lint status must return Boolean, got: " ++ v.pyStr))

/-- `LinterStatus.is_success`: the loop over `_status_list` that turns
the report status to `False` at the first entry that is not a group
member and did not succeed. -/
def isSuccessLoop : List LintStatusEntry → Bool
  | [] => true
  | e :: rest =>
    if !e.is_group_entry && !e.is_success then false else isSuccessLoop rest

/-- The `is_success` property of a `LinterStatus`. -/
def LinterStatus.is_success (st : LinterStatus) : Bool :=
  isSuccessLoop st.status_list

/-- `Linter._load_notebook`, applied to the outcome of `json.loads`
(`none` when loading raised `JSONDecodeError`/`ValueError`).  A parse
failure is caught and yields `data = None`; otherwise
`data.get("cells")` raises `AttributeError` on a non-mapping top level
(uncaught: not a `ValueError`), and a mapping without a list under
"cells" hits `sys.exit(1)` (`SystemExit` is likewise uncaught by the
`except` clause). -/
def loadNotebook (parsed : Option Json) : Except PyErr (Option Json) :=
  match parsed with
  | Option.none => Except.ok Option.none
  | some (Json.obj kvs) =>
    match jlookup kvs "cells" with
    | some (Json.arr _) => Except.ok (some (Json.obj kvs))
    | _ => Except.error (.systemExit 1)
  | some _ => Except.error .attributeError

/-- Python truthiness of the loaded `data` (`if not data`). -/
def pyTruthy : Option Json → Bool
  | Option.none => false
  | some Json.null => false
  | some (Json.bool b) => b
  | some (Json.num n) => decide (n ≠ 0)
  | some (Json.str s) => !s.isEmpty
  | some (Json.arr xs) => !xs.isEmpty
  | some (Json.obj kvs) => !kvs.isEmpty

/-- `cell.get("cell_type")`: `AttributeError` unless the cell is a
mapping. -/
def cellGetType (cell : Json) : Except PyErr (Option Json) :=
  match cell with
  | Json.obj kvs => Except.ok (jlookup kvs "cell_type")
  | _ => Except.error .attributeError

/-- The `"".join` part of `cellJoinSource` as a top-level function:
joins a list of JSON values into one string, raising `TypeError` at the
first non-string item. -/
def pyJoin : List Json → Except PyErr String
  | [] => Except.ok ""
  | Json.str s :: rest => do
    let r ← pyJoin rest
    Except.ok (s ++ r)
  | _ :: _ => Except.error (.typeError "sequence item: expected str instance")

/-- `"".join(cell["source"])`: `KeyError` for a missing key, a
`TypeError` when the value cannot be joined into a string (a plain
string joins to itself). -/
def cellJoinSource (cell : Json) : Except PyErr String :=
  match cell with
  | Json.obj kvs =>
    match jlookup kvs "source" with
    | some (Json.arr xs) => pyJoin xs
    | some (Json.str s) => Except.ok s
    | some _ => Except.error (.typeError "can only join an iterable")
    | Option.none => Except.error .keyError
  | _ => Except.error (.typeError "object is not subscriptable")

/-- The scope filter of `_run_lint_group`: `continue` (skip the cell)
when a `TEXT`-scoped lint meets a cell whose `cell_type` is not
"markdown", or a `CODE`-scoped lint meets one whose `cell_type` is not
"code". -/
def scopeSkips (scope : Scope) (cell_type : Option Json) : Bool :=
  match scope, cell_type with
  | .text, some (Json.str s) => decide (s ≠ "markdown")
  | .text, _ => true
  | .code, some (Json.str s) => decide (s ≠ "code")
  | .code, _ => true
  | _, _ => false

/-- `enumerate` over the cells of the notebook. -/
def pyEnum (i : Nat) : List Json → List (Nat × Json)
  | [] => []
  | c :: cs => (i, c) :: pyEnum (i + 1) cs

/-- `data.get("cells")` at the start of `_run_lint_group`, which then
iterates it as a list. -/
def getCells (data : Json) : Except PyErr (List Json) :=
  match data with
  | Json.obj kvs =>
    match jlookup kvs "cells" with
    | some (Json.arr cs) => Except.ok cs
    | _ => Except.error (.typeError "object is not iterable")
  | _ => Except.error .attributeError

/-- The per-cell loop of `Linter._run_lint_group`: skip cells outside
the scope, run the lint on each remaining cell, collect its result and
add a member status entry named `<lint>__cell_<idx>` in group
`lint.name`. -/
def runGroupCells (lint : Lint) (path : NbPath) :
    List (Nat × Json) → LinterStatus → Except PyErr (List PyVal × LinterStatus)
  | [], st => Except.ok ([], st)
  | (cell_idx, cell) :: rest, st => do
    let cell_type ← cellGetType cell
    if scopeSkips lint.scope cell_type then
      runGroupCells lint path rest st
    else do
      let source ← cellJoinSource cell
      let is_success := lint.run source cell path
      let nm := lint.name ++ "__cell_" ++ toString cell_idx
      let st ← st.add_entry lint is_success (some nm) (some lint.name) true
      let (results, st) ← runGroupCells lint path rest st
      Except.ok (is_success :: results, st)

/-- `Linter._run_lint_group`: run the lint over every in-scope cell,
then combine the collected results with `any`/`all` according to the
lint's condition (Python truthiness; by this point every collected
result passed `add_entry`'s bool check). -/
def runLintGroup (lint : Lint) (data : Json) (st : LinterStatus) (path : NbPath) :
    Except PyErr (Bool × LinterStatus) := do
  let cells ← getCells data
  let (results, st) ← runGroupCells lint path (pyEnum 0 cells) st
  match lint.cond with
  | .anyC => Except.ok (results.any PyVal.truthy, st)
  | .allC => Except.ok (results.all PyVal.truthy, st)

/-- The file-level loop of `Linter.run`: each lint registered under
`(FILE, ANY)` runs once on (raw source, parsed data, path) and records
one entry with the defaults (`group = None`, `is_group_entry = False`). -/
def runFileLints (lints : List Lint) (source : String) (data : Json) (path : NbPath)
    (st : LinterStatus) : Except PyErr LinterStatus :=
  match lints with
  | [] => Except.ok st
  | lint :: rest => do
    let is_success := lint.run source data path
    let st ← st.add_entry lint is_success
    runFileLints rest source data path st

/-- The innermost cell-scope loop of `Linter.run`: for each lint under
one (scope, cond) key, compute the group verdict and record the
aggregate entry (`group = lint.name`, `is_group_entry = False`). -/
def runLintList (lints : List Lint) (data : Json) (path : NbPath)
    (st : LinterStatus) : Except PyErr LinterStatus :=
  match lints with
  | [] => Except.ok st
  | lint :: rest => do
    let (is_success, st) ← runLintGroup lint data st path
    let st ← st.add_entry lint (.bool is_success) Option.none (some lint.name)
    runLintList rest data path st

/-- Iteration of `for cond in decorator.Options.Cond` inside one scope. -/
def runConds (reg : Registry) (scope : Scope) (conds : List Cond) (data : Json)
    (path : NbPath) (st : LinterStatus) : Except PyErr LinterStatus :=
  match conds with
  | [] => Except.ok st
  | cond :: rest => do
    let st ← runLintList (reg scope cond) data path st
    runConds reg scope rest data path st

/-- Iteration of the outer scope loop of `Linter.run`. -/
def runScopes (reg : Registry) (scopes : List Scope) (data : Json) (path : NbPath)
    (st : LinterStatus) : Except PyErr LinterStatus :=
  match scopes with
  | [] => Except.ok st
  | scope :: rest => do
    let st ← runConds reg scope [Cond.anyC, Cond.allC] data path st
    runScopes reg rest data path st

/-- The result of `Linter.run`: the Python `False` returned for an
unloadable notebook, or the populated `LinterStatus`. -/
inductive RunResult where
  | failure : RunResult
  | report (st : LinterStatus) : RunResult

/-- `Linter.run`: load the notebook (here: receive the `json.loads`
outcome and raw source), return `False` on a falsy `data`, then run the
`(FILE, ANY)` lints followed by the cell-level scopes `CELLS`, `CODE`,
`TEXT`, each with conditions `ANY` then `ALL`. -/
def Linter.run (verbose : Bool) (parsed : Option Json) (source : String)
    (path : NbPath) (lint_dict : Registry) : Except PyErr RunResult := do
  let data ← loadNotebook parsed
  if !pyTruthy data then
    Except.ok RunResult.failure
  else
    match data with
    | Option.none => Except.ok RunResult.failure
    | some d => do
      let st : LinterStatus := ⟨path, verbose, []⟩
      let st ← runFileLints (lint_dict Scope.file Cond.anyC) source d path st
      let st ← runScopes lint_dict [Scope.cells, Scope.code, Scope.text] d path st
      Except.ok (RunResult.report st)

/-! ## Report rendering (`LinterStatus.__str__`) -/

/-- `LinterStatus._format_status`: colorized Pass/Fail string. -/
def formatStatus (entry : LintStatusEntry) : String :=
  if entry.is_success then "\x1b[32mPass\x1b[00m"
  else if entry.is_group_entry then "\x1b[33mFail\x1b[00m"
  else "\x1b[91mFail\x1b[00m"

/-- One step of building the `groups` dict in `__str__`: append the
entry to the list under its `group` key, or add a new key at the end. -/
def addToGroups (groups : List (Option String × List LintStatusEntry))
    (e : LintStatusEntry) : List (Option String × List LintStatusEntry) :=
  match groups with
  | [] => [(e.group, [e])]
  | (k, es) :: rest =>
    if k = e.group then (k, es ++ [e]) :: rest else (k, es) :: addToGroups rest e

/-- The loop body building the `groups` dict in `__str__`: group-member
entries are collected under their group key, others are skipped. -/
def groupStep (gs : List (Option String × List LintStatusEntry))
    (e : LintStatusEntry) : List (Option String × List LintStatusEntry) :=
  if e.is_group_entry then addToGroups gs e else gs

/-- The `groups` dict of `__str__`: built from the group-member entries
in order, only when verbose. -/
def mkGroups (verbose : Bool) (entries : List LintStatusEntry) :
    List (Option String × List LintStatusEntry) :=
  if verbose then entries.foldl groupStep [] else []

/-- `entry.group in groups` together with `groups[entry.group]`. -/
def groupsFind (groups : List (Option String × List LintStatusEntry))
    (k : Option String) : Option (List LintStatusEntry) :=
  (groups.find? (fun p => decide (p.1 = k))).map Prod.snd

/-- Concatenation of rendered lines (the `output +=` accumulation). -/
def strConcat : List String → String
  | [] => ""
  | s :: rest => s ++ strConcat rest

/-- One child line of the verbose block (`- <status> | <name>`). -/
def childLine (c : LintStatusEntry) : String :=
  "- " ++ formatStatus c ++ " | " ++ c.name ++ "\n"

/-- The body of the `for entry in root_entries` loop of `__str__`: the
top-level line, followed (when verbose and the entry's group key is in
`groups`) by the `[All results]` block of child lines. -/
def renderRoot (verbose : Bool) (groups : List (Option String × List LintStatusEntry))
    (entry : LintStatusEntry) : String :=
  let status := formatStatus entry
  let nm := entry.lint.style ++ "::" ++ entry.name
  let msg := match entry.lint.message with
    | some m => if m.isEmpty then "" else " | " ++ m
    | Option.none => ""
  let base := status ++ " | " ++ nm ++ msg ++ "\n"
  if verbose then
    match groupsFind groups entry.group with
    | some children =>
      base ++ "[All results]\n" ++ strConcat (children.map childLine) ++ "\n"
    | Option.none => base
  else base

/-- `LinterStatus.__str__`: group the member entries by their group key
(verbose only), filter the top-level entries, and render each top-level
entry with its child block. -/
def LinterStatus.toStr (st : LinterStatus) : String :=
  let groups := mkGroups st.verbose st.status_list
  let roots := st.status_list.filter (fun e => !e.is_group_entry)
  strConcat (roots.map (renderRoot st.verbose groups))

/-! ## Characterization of the entries produced by a run

The following definitions restate, following the spec's description of
the dispatch, which entries `Linter.run` is expected to produce and in
which order; the theorems below compare `Linter.run` against them. -/

/-- A well-formed cell: a mapping whose "source" is a list of strings
(what the engine's `"".join(cell["source"])` requires). -/
def WFCell : Json → Bool
  | Json.obj kvs =>
    match jlookup kvs "source" with
    | some (Json.arr xs) =>
      xs.all fun x => match x with | Json.str _ => true | _ => false
    | _ => false
  | _ => false

/-- The text of a well-formed cell: its source lines concatenated. -/
def cellText : Json → String
  | Json.obj kvs =>
    match jlookup kvs "source" with
    | some (Json.arr xs) =>
      strConcat (xs.map fun x => match x with | Json.str s => s | _ => "")
    | _ => ""
  | _ => ""

/-- The `cell_type` of a cell, `none` when absent or not a mapping. -/
def cellTypeOf : Json → Option Json
  | Json.obj kvs => jlookup kvs "cell_type"
  | _ => Option.none

/-- The enumerated cells selected by a scope's filter. -/
def matchedPairs (scope : Scope) (l : List (Nat × Json)) : List (Nat × Json) :=
  l.filter fun p => !scopeSkips scope (cellTypeOf p.2)

/-- The member entry recorded for one selected cell: the callback's
verdict, the name `<lint>__cell_<document index>`, the lint's name as
group key, and the member flag set. -/
def memberEntry (lint : Lint) (path : NbPath) (p : Nat × Json) : LintStatusEntry :=
  ⟨lint, (lint.run (cellText p.2) p.2 path).asBool,
    lint.name ++ "__cell_" ++ toString p.1, some lint.name, true⟩

/-- All member entries of one cell-scoped lint, in document cell order. -/
def groupMembers (lint : Lint) (path : NbPath) (l : List (Nat × Json)) :
    List LintStatusEntry :=
  (matchedPairs lint.scope l).map (memberEntry lint path)

/-- The callback verdicts collected for the selected cells. -/
def groupVerdictsOn (lint : Lint) (path : NbPath) (l : List (Nat × Json)) :
    List PyVal :=
  (matchedPairs lint.scope l).map fun p => lint.run (cellText p.2) p.2 path

/-- The aggregate verdict of a cell-scoped lint on a document: `any`
(respectively `all`) of the selected cells' verdicts. -/
def aggVerdict (lint : Lint) (path : NbPath) (cs : List Json) : Bool :=
  match lint.cond with
  | .anyC => (groupVerdictsOn lint path (pyEnum 0 cs)).any PyVal.truthy
  | .allC => (groupVerdictsOn lint path (pyEnum 0 cs)).all PyVal.truthy

/-- The single entry of a `(FILE, ANY)` lint. -/
def fileEntry (source : String) (data : Json) (path : NbPath) (lint : Lint) :
    LintStatusEntry :=
  ⟨lint, (lint.run source data path).asBool, lint.name, Option.none, false⟩

/-- All entries of one cell-scoped lint: its member entries in document
cell order followed by its aggregate entry (`is_group_entry = false`,
group key = the lint's name). -/
def cellLintEntries (path : NbPath) (cs : List Json) (lint : Lint) :
    List LintStatusEntry :=
  groupMembers lint path (pyEnum 0 cs) ++
    [⟨lint, aggVerdict lint path cs, lint.name, some lint.name, false⟩]

/-- The full expected entry list of a run: one entry per `(FILE, ANY)`
lint in registration order, then for each scope `CELLS`, `CODE`, `TEXT`
and each condition `ANY`, `ALL`, the entries of each lint registered
under that key, in registration order. -/
def expectedEntries (reg : Registry) (source : String) (data : Json)
    (path : NbPath) (cs : List Json) : List LintStatusEntry :=
  (reg Scope.file Cond.anyC).map (fileEntry source data path) ++
    ([Scope.cells, Scope.code, Scope.text].flatMap fun sc =>
      [Cond.anyC, Cond.allC].flatMap fun co =>
        (reg sc co).flatMap (cellLintEntries path cs))

/-- A lint whose callback honors the boolean contract on every input. -/
def BoolLint (l : Lint) : Prop :=
  ∀ s c p, (l.run s c p).isBool = true

/-- A registry all of whose lints honor the boolean contract. -/
def RegistryBool (reg : Registry) : Prop :=
  ∀ sc co, ∀ l ∈ reg sc co, BoolLint l

/-! ## Basic lemmas -/

lemma ok_bind {α β : Type} (a : α) (f : α → Except PyErr β) :
    (Except.ok a >>= f) = f a := rfl

lemma cellName_isEmpty_false (a b : String) :
    (a ++ "__cell_" ++ b).isEmpty = false := by
  cases h : (a ++ "__cell_" ++ b).isEmpty
  · rfl
  · exfalso
    rw [String.isEmpty_iff] at h
    have hd := congrArg String.data h
    simp only [String.data_append] at hd
    simp at hd

lemma jlookup_isEmpty_false {kvs : List (String × Json)} {k : String} {v : Json}
    (h : jlookup kvs k = some v) : kvs.isEmpty = false := by
  cases kvs with
  | nil => simp [jlookup] at h
  | cons p rest => rfl

lemma WFCell_obj {c : Json} (h : WFCell c = true) : ∃ kvs, c = Json.obj kvs := by
  cases c <;> simp_all [WFCell]

lemma cellGetType_of_WF {c : Json} (h : WFCell c = true) :
    cellGetType c = Except.ok (cellTypeOf c) := by
  obtain ⟨kvs, rfl⟩ := WFCell_obj h
  rfl

lemma pyJoin_of_strings (xs : List Json)
    (h : (xs.all fun x => match x with | Json.str _ => true | _ => false) = true) :
    pyJoin xs =
      Except.ok (strConcat (xs.map fun x => match x with | Json.str s => s | _ => "")) := by
  induction xs with
  | nil => rfl
  | cons x rest ih =>
    simp only [List.all_cons, Bool.and_eq_true] at h
    obtain ⟨hx, hrest⟩ := h
    cases x
    case str s => simp [pyJoin, ih hrest, strConcat, ok_bind]
    all_goals exact Bool.noConfusion hx

lemma cellJoinSource_of_WF {c : Json} (h : WFCell c = true) :
    cellJoinSource c = Except.ok (cellText c) := by
  obtain ⟨kvs, rfl⟩ := WFCell_obj h
  simp only [WFCell] at h
  simp only [cellJoinSource, cellText]
  cases hl : jlookup kvs "source" with
  | none => rw [hl] at h; exact Bool.noConfusion h
  | some v =>
    rw [hl] at h
    cases v
    case arr xs => exact pyJoin_of_strings xs h
    all_goals exact Bool.noConfusion h

/-! ## Characterization lemmas for the dispatch -/

lemma runGroupCells_eq (lint : Lint) (path : NbPath) (hb : BoolLint lint)
    (l : List (Nat × Json)) :
    ∀ st : LinterStatus, (∀ p ∈ l, WFCell p.2 = true) →
      runGroupCells lint path l st =
        Except.ok (groupVerdictsOn lint path l,
          { st with status_list := st.status_list ++ groupMembers lint path l }) := by
  induction l with
  | nil =>
    intro st _
    simp [runGroupCells, groupVerdictsOn, groupMembers, matchedPairs]
  | cons p rest ih =>
    intro st h
    obtain ⟨i, c⟩ := p
    have hwf : WFCell c = true := h (i, c) (List.mem_cons_self _ _)
    have hrest : ∀ q ∈ rest, WFCell q.2 = true :=
      fun q hq => h q (List.mem_cons_of_mem _ hq)
    simp only [runGroupCells, cellGetType_of_WF hwf, ok_bind]
    by_cases hs : scopeSkips lint.scope (cellTypeOf c) = true
    · rw [if_pos hs, ih st hrest]
      simp [groupVerdictsOn, groupMembers, matchedPairs, List.filter_cons, hs]
    · rw [if_neg hs]
      simp only [cellJoinSource_of_WF hwf, ok_bind]
      have hbool := hb (cellText c) c path
      cases hv : lint.run (cellText c) c path with
      | bool b =>
        simp only [LinterStatus.add_entry, cellName_isEmpty_false, Bool.false_eq_true,
          if_false, ok_bind]
        rw [ih _ hrest]
        simp only [ok_bind]
        rw [Bool.not_eq_true] at hs
        simp [groupVerdictsOn, groupMembers, matchedPairs, List.filter_cons, hs,
          memberEntry, hv, PyVal.asBool, List.append_assoc]
      | str s => rw [hv] at hbool; exact Bool.noConfusion hbool
      | int n => rw [hv] at hbool; exact Bool.noConfusion hbool
      | none => rw [hv] at hbool; exact Bool.noConfusion hbool

lemma runLintGroup_eq (lint : Lint) (path : NbPath) (hb : BoolLint lint)
    {kvs : List (String × Json)} {cs : List Json}
    (hc : jlookup kvs "cells" = some (Json.arr cs))
    (hwf : ∀ c ∈ cs, WFCell c = true) (st : LinterStatus) :
    runLintGroup lint (Json.obj kvs) st path =
      Except.ok (aggVerdict lint path cs,
        { st with status_list :=
            st.status_list ++ groupMembers lint path (pyEnum 0 cs) }) := by
  have hcells : getCells (Json.obj kvs) = Except.ok cs := by
    simp [getCells, hc]
  have henum : ∀ p ∈ pyEnum 0 cs, WFCell p.2 = true := by
    have : ∀ (i : Nat) (l : List Json), (∀ c ∈ l, WFCell c = true) →
        ∀ p ∈ pyEnum i l, WFCell p.2 = true := by
      intro i l
      induction l generalizing i with
      | nil => intro _ p hp; simp [pyEnum] at hp
      | cons c rest ih =>
        intro hl p hp
        simp only [pyEnum, List.mem_cons] at hp
        cases hp with
        | inl hp => subst hp; exact hl c (List.mem_cons_self _ _)
        | inr hp => exact ih (i + 1) (fun d hd => hl d (List.mem_cons_of_mem _ hd)) p hp
    exact this 0 cs hwf
  simp only [runLintGroup, hcells, ok_bind,
    runGroupCells_eq lint path hb (pyEnum 0 cs) st henum]
  cases hcond : lint.cond <;> simp [aggVerdict, hcond]

lemma runFileLints_eq (source : String) (data : Json) (path : NbPath) :
    ∀ (lints : List Lint) (st : LinterStatus), (∀ l ∈ lints, BoolLint l) →
      runFileLints lints source data path st =
        Except.ok { st with status_list :=
          st.status_list ++ lints.map (fileEntry source data path) } := by
  intro lints
  induction lints with
  | nil => intro st _; simp [runFileLints]
  | cons lint rest ih =>
    intro st h
    have hb := h lint (List.mem_cons_self _ _) source data path
    simp only [runFileLints]
    cases hv : lint.run source data path with
    | bool b =>
      simp only [LinterStatus.add_entry, ok_bind]
      rw [ih _ (fun l hl => h l (List.mem_cons_of_mem _ hl))]
      simp [fileEntry, hv, PyVal.asBool, List.append_assoc]
    | str s => rw [hv] at hb; exact Bool.noConfusion hb
    | int n => rw [hv] at hb; exact Bool.noConfusion hb
    | none => rw [hv] at hb; exact Bool.noConfusion hb

lemma runLintList_eq (path : NbPath) {kvs : List (String × Json)} {cs : List Json}
    (hc : jlookup kvs "cells" = some (Json.arr cs))
    (hwf : ∀ c ∈ cs, WFCell c = true) :
    ∀ (lints : List Lint) (st : LinterStatus), (∀ l ∈ lints, BoolLint l) →
      runLintList lints (Json.obj kvs) path st =
        Except.ok { st with status_list :=
          st.status_list ++ lints.flatMap (cellLintEntries path cs) } := by
  intro lints
  induction lints with
  | nil => intro st _; simp [runLintList]
  | cons lint rest ih =>
    intro st h
    have hb := h lint (List.mem_cons_self _ _)
    simp only [runLintList, runLintGroup_eq lint path hb hc hwf st, ok_bind]
    simp only [LinterStatus.add_entry, ok_bind]
    rw [ih _ (fun l hl => h l (List.mem_cons_of_mem _ hl))]
    simp [cellLintEntries, List.append_assoc]

lemma runConds_eq (reg : Registry) (scope : Scope) (path : NbPath)
    {kvs : List (String × Json)} {cs : List Json}
    (hc : jlookup kvs "cells" = some (Json.arr cs))
    (hwf : ∀ c ∈ cs, WFCell c = true)
    (hreg : RegistryBool reg) :
    ∀ (conds : List Cond) (st : LinterStatus),
      runConds reg scope conds (Json.obj kvs) path st =
        Except.ok { st with status_list :=
          st.status_list ++ conds.flatMap fun co => (reg scope co).flatMap (cellLintEntries path cs) } := by
  intro conds
  induction conds with
  | nil => intro st; simp [runConds]
  | cons co rest ih =>
    intro st
    simp only [runConds, runLintList_eq path hc hwf (reg scope co) st (hreg scope co),
      ok_bind]
    rw [ih]
    simp [List.append_assoc]

lemma runScopes_eq (reg : Registry) (path : NbPath)
    {kvs : List (String × Json)} {cs : List Json}
    (hc : jlookup kvs "cells" = some (Json.arr cs))
    (hwf : ∀ c ∈ cs, WFCell c = true)
    (hreg : RegistryBool reg) :
    ∀ (scopes : List Scope) (st : LinterStatus),
      runScopes reg scopes (Json.obj kvs) path st =
        Except.ok { st with status_list :=
          st.status_list ++ scopes.flatMap fun sc => [Cond.anyC, Cond.allC].flatMap fun co => (reg sc co).flatMap (cellLintEntries path cs) } := by
  intro scopes
  induction scopes with
  | nil => intro st; simp [runScopes]
  | cons sc rest ih =>
    intro st
    simp only [runScopes, runConds_eq reg sc path hc hwf hreg [Cond.anyC, Cond.allC] st,
      ok_bind]
    rw [ih]
    simp [List.append_assoc]

/-- Full characterization of a successful run: the produced report holds
exactly the expected entries, in the expected order. -/
lemma run_spec (verbose : Bool) (source : String) (path : NbPath) (reg : Registry)
    {kvs : List (String × Json)} {cs : List Json}
    (hc : jlookup kvs "cells" = some (Json.arr cs))
    (hwf : ∀ c ∈ cs, WFCell c = true)
    (hreg : RegistryBool reg) :
    Linter.run verbose (some (Json.obj kvs)) source path reg =
      Except.ok (RunResult.report
        ⟨path, verbose, expectedEntries reg source (Json.obj kvs) path cs⟩) := by
  have hload : loadNotebook (some (Json.obj kvs)) = Except.ok (some (Json.obj kvs)) := by
    simp [loadNotebook, hc]
  have htruthy : pyTruthy (some (Json.obj kvs)) = true := by
    have he : kvs.isEmpty = false := jlookup_isEmpty_false hc
    simp [pyTruthy, he]
  simp only [Linter.run, hload, ok_bind, htruthy, Bool.not_true, Bool.false_eq_true,
    if_false]
  rw [runFileLints_eq source (Json.obj kvs) path (reg Scope.file Cond.anyC)
    ⟨path, verbose, []⟩ (hreg Scope.file Cond.anyC)]
  simp only [ok_bind]
  rw [runScopes_eq reg path hc hwf hreg [Scope.cells, Scope.code, Scope.text]]
  simp only [ok_bind]
  simp [expectedEntries]

/-! ## Claim-side vocabulary -/

/-- A registry with a single lint registered under one (scope, cond)
key. -/
def singletonReg (sc : Scope) (co : Cond) (l : Lint) : Registry :=
  fun s c => if s = sc ∧ c = co then [l] else []

/-- A cell whose kind is code (its `cell_type` is the string "code"). -/
def isCodeCell (c : Json) : Bool :=
  match cellTypeOf c with
  | some (Json.str s) => decide (s = "code")
  | _ => false

/-- A cell whose kind is prose (its `cell_type` is "markdown"). -/
def isTextCell (c : Json) : Bool :=
  match cellTypeOf c with
  | some (Json.str s) => decide (s = "markdown")
  | _ => false

/-- The cells a scope's filter selects: `CELLS` selects every cell,
`CODE` the code cells, `TEXT` the prose cells (`FILE` never reaches the
cell loop; no cell is evicted there). -/
def isScopeCell (sc : Scope) (c : Json) : Bool :=
  match sc with
  | .cells => true
  | .code => isCodeCell c
  | .text => isTextCell c
  | .file => true

/-- The subsequence of cells selected by a scope, in document order. -/
def selectedCells (sc : Scope) (cs : List Json) : List Json :=
  cs.filter (isScopeCell sc)

/-- `pat` occurs as a contiguous run inside `l`. -/
def leadsList : List Char → List Char → Bool
  | [], _ => true
  | _ :: _, [] => false
  | a :: as, b :: bs => decide (a = b) && leadsList as bs

/-- Substring occurrence over the underlying character lists. -/
def occursInList (pat : List Char) : List Char → Bool
  | [] => pat.isEmpty
  | l@(_ :: rest) => leadsList pat l || occursInList pat rest

/-- `pat` occurs as a substring of `s`. -/
def occursIn (pat s : String) : Bool :=
  occursInList pat.data s.data

/-! ## More lemmas -/

lemma err_bind {α β : Type} (e : PyErr) (f : α → Except PyErr β) :
    (Except.error e >>= f) = Except.error e := rfl

lemma isSuccessLoop_false_iff (es : List LintStatusEntry) :
    isSuccessLoop es = false ↔
      ∃ e ∈ es, e.is_group_entry = false ∧ e.is_success = false := by
  induction es with
  | nil => simp [isSuccessLoop]
  | cons e rest ih =>
    simp only [isSuccessLoop]
    cases hbe : (!e.is_group_entry && !e.is_success) with
    | true =>
      simp only [Bool.and_eq_true, Bool.not_eq_true'] at hbe
      constructor
      · intro _
        exact ⟨e, List.mem_cons_self _ _, hbe.1, hbe.2⟩
      · intro _
        simp
    | false =>
      rw [if_neg Bool.false_ne_true, ih]
      constructor
      · rintro ⟨x, hx, hxx⟩
        exact ⟨x, List.mem_cons_of_mem _ hx, hxx⟩
      · rintro ⟨x, hx, hg, hs⟩
        cases List.mem_cons.mp hx with
        | inl hxe =>
          subst hxe
          rw [hg, hs] at hbe
          simp at hbe
        | inr hxr => exact ⟨x, hxr, hg, hs⟩

lemma isSuccessLoop_filter (es : List LintStatusEntry) :
    isSuccessLoop (es.filter fun e => !e.is_group_entry) = isSuccessLoop es := by
  induction es with
  | nil => rfl
  | cons e rest ih =>
    by_cases hg : e.is_group_entry = true
    · simp [isSuccessLoop, List.filter_cons, hg, ih]
    · rw [Bool.not_eq_true] at hg
      by_cases hs : e.is_success = true
      · simp [isSuccessLoop, List.filter_cons, hg, hs, ih]
      · rw [Bool.not_eq_true] at hs
        simp [isSuccessLoop, List.filter_cons, hg, hs, ih]

lemma scopeSkips_not (sc : Scope) (c : Json) :
    (!scopeSkips sc (cellTypeOf c)) = isScopeCell sc c := by
  cases sc
  case file => rfl
  case cells => rfl
  case code =>
    cases hct : cellTypeOf c with
    | none => simp [scopeSkips, isScopeCell, isCodeCell, hct]
    | some v =>
      cases v <;> simp [scopeSkips, isScopeCell, isCodeCell, hct]
  case text =>
    cases hct : cellTypeOf c with
    | none => simp [scopeSkips, isScopeCell, isTextCell, hct]
    | some v =>
      cases v <;> simp [scopeSkips, isScopeCell, isTextCell, hct]

lemma matchedPairs_snd (sc : Scope) :
    ∀ (i : Nat) (cs : List Json),
      (matchedPairs sc (pyEnum i cs)).map Prod.snd = selectedCells sc cs := by
  intro i cs
  induction cs generalizing i with
  | nil => rfl
  | cons c rest ih =>
    have hre := ih (i + 1)
    simp only [pyEnum, matchedPairs, selectedCells, List.filter_cons]
    simp only [matchedPairs, selectedCells] at hre
    rw [scopeSkips_not sc c]
    cases hsel : isScopeCell sc c with
    | true => simp [hre]
    | false => simpa using hre

lemma groupVerdictsOn_pyEnum (lint : Lint) (path : NbPath) (cs : List Json) :
    groupVerdictsOn lint path (pyEnum 0 cs) =
      (selectedCells lint.scope cs).map fun c => lint.run (cellText c) c path := by
  unfold groupVerdictsOn
  rw [← matchedPairs_snd lint.scope 0 cs, List.map_map]
  rfl

lemma any_map_comp {α β : Type} (f : α → β) (p : β → Bool) :
    ∀ l : List α, (l.map f).any p = l.any fun a => p (f a) := by
  intro l
  induction l with
  | nil => rfl
  | cons a t ih => simp only [List.map_cons, List.any_cons, ih]

lemma all_map_comp {α β : Type} (f : α → β) (p : β → Bool) :
    ∀ l : List α, (l.map f).all p = l.all fun a => p (f a) := by
  intro l
  induction l with
  | nil => rfl
  | cons a t ih => simp only [List.map_cons, List.all_cons, ih]

lemma aggVerdict_anyC (lint : Lint) (path : NbPath) (cs : List Json)
    (h : lint.cond = Cond.anyC) :
    aggVerdict lint path cs =
      (selectedCells lint.scope cs).any fun c => (lint.run (cellText c) c path).truthy := by
  simp only [aggVerdict, h, groupVerdictsOn_pyEnum, any_map_comp]

lemma aggVerdict_allC (lint : Lint) (path : NbPath) (cs : List Json)
    (h : lint.cond = Cond.allC) :
    aggVerdict lint path cs =
      (selectedCells lint.scope cs).all fun c => (lint.run (cellText c) c path).truthy := by
  simp only [aggVerdict, h, groupVerdictsOn_pyEnum, all_map_comp]

lemma registryBool_singleton (sc : Scope) (co : Cond) (l : Lint) (hb : BoolLint l) :
    RegistryBool (singletonReg sc co l) := by
  intro s c l' hl'
  unfold singletonReg at hl'
  by_cases h : s = sc ∧ c = co
  · rw [if_pos h] at hl'
    simp only [List.mem_singleton] at hl'
    subst hl'
    exact hb
  · rw [if_neg h] at hl'
    simp at hl'

lemma expectedEntries_singleton (sc : Scope) (co : Cond) (l : Lint)
    (source : String) (data : Json) (path : NbPath) (cs : List Json)
    (hsc : sc ≠ Scope.file) :
    expectedEntries (singletonReg sc co l) source data path cs =
      cellLintEntries path cs l := by
  cases sc with
  | file => exact absurd rfl hsc
  | cells => cases co <;> simp [expectedEntries, singletonReg]
  | code => cases co <;> simp [expectedEntries, singletonReg]
  | text => cases co <;> simp [expectedEntries, singletonReg]

lemma run_singleton (verbose : Bool) (source : String) (path : NbPath)
    (sc : Scope) (co : Cond) (l : Lint) (hsc : sc ≠ Scope.file)
    {kvs : List (String × Json)} {cs : List Json}
    (hc : jlookup kvs "cells" = some (Json.arr cs))
    (hwf : ∀ c ∈ cs, WFCell c = true) (hb : BoolLint l) :
    Linter.run verbose (some (Json.obj kvs)) source path (singletonReg sc co l) =
      Except.ok (RunResult.report ⟨path, verbose, cellLintEntries path cs l⟩) := by
  rw [run_spec verbose source path _ hc hwf (registryBool_singleton sc co l hb),
    expectedEntries_singleton sc co l source _ path cs hsc]

lemma any_congr_mem {α : Type} (p q : α → Bool) :
    ∀ l : List α, (∀ x ∈ l, p x = q x) → l.any p = l.any q := by
  intro l
  induction l with
  | nil => intro _; rfl
  | cons a t ih =>
    intro h
    simp only [List.any_cons, h a (List.mem_cons_self _ _),
      ih (fun x hx => h x (List.mem_cons_of_mem _ hx))]

lemma all_congr_mem {α : Type} (p q : α → Bool) :
    ∀ l : List α, (∀ x ∈ l, p x = q x) → l.all p = l.all q := by
  intro l
  induction l with
  | nil => intro _; rfl
  | cons a t ih =>
    intro h
    simp only [List.all_cons, h a (List.mem_cons_self _ _),
      ih (fun x hx => h x (List.mem_cons_of_mem _ hx))]

lemma filter_isEmpty_not_any {α : Type} (p : α → Bool) (l : List α) :
    (l.filter p).isEmpty = !l.any p := by
  induction l with
  | nil => rfl
  | cons a t ih =>
    cases hp : p a <;> simp [List.filter_cons, hp, ih]

/-! ## Shared concrete fixtures -/

/-- The empty registry. -/
def emptyReg : Registry := fun _ _ => []

/-- A markdown cell with one source line. -/
def wCellMd : Json :=
  Json.obj [("cell_type", Json.str "markdown"), ("source", Json.arr [Json.str "hello "])]

/-- A code cell with one source line. -/
def wCellCode : Json :=
  Json.obj [("cell_type", Json.str "code"), ("source", Json.arr [Json.str "x = 1"])]

/-- A file-scoped always-true lint. -/
def wLintFileTrue : Lint :=
  ⟨"always_true", Option.none, "test", Scope.file, Cond.anyC, fun _ _ _ => PyVal.bool true⟩

/-- A registry holding only `wLintFileTrue` under `(FILE, ANY)`. -/
def wRegFile : Registry :=
  fun s c => match s, c with
  | Scope.file, Cond.anyC => [wLintFileTrue]
  | _, _ => []

/-- A notebook document with an empty cell list. -/
def wEmptyDoc : Json := Json.obj [("cells", Json.arr [])]

/-- The status produced by running `wRegFile` on `wEmptyDoc`. -/
def wStC1 : LinterStatus :=
  ⟨"nb", false, [⟨wLintFileTrue, true, "always_true", Option.none, false⟩]⟩

/-- Top-level value is a mapping. -/
def isObj : Json → Bool
  | Json.obj _ => true
  | _ => false

/-! ## Claims -/

/-- C1: for every document and registry for which `Linter.run` produces
a status report, the report's derived `is_success` is false iff at least
one entry with `is_group_entry = false` has `is_success = false`; and
group-member entries never affect it: removing every member entry leaves
the derived status unchanged. -/
theorem c1_overall_success (verbose : Bool) (parsed : Option Json) (source : String)
    (path : NbPath) (reg : Registry) (st : LinterStatus)
    (h : Linter.run verbose parsed source path reg = Except.ok (RunResult.report st)) :
    (st.is_success = false ↔
      ∃ e ∈ st.status_list, e.is_group_entry = false ∧ e.is_success = false) ∧
    isSuccessLoop (st.status_list.filter fun e => !e.is_group_entry) = st.is_success :=
  ⟨isSuccessLoop_false_iff st.status_list, isSuccessLoop_filter st.status_list⟩

/-- Witness for C1 at a concrete run. -/
theorem c1_overall_success_witness :
    (wStC1.is_success = false ↔
      ∃ e ∈ wStC1.status_list, e.is_group_entry = false ∧ e.is_success = false) ∧
    isSuccessLoop (wStC1.status_list.filter fun e => !e.is_group_entry) =
      wStC1.is_success :=
  c1_overall_success false (some wEmptyDoc) "" "nb" wRegFile wStC1 rfl

/-- C2 counterexample: on a document whose top-level parsed value is a
mapping without a list under "cells" (malformed in the claim's sense),
`run` does not return the explicit failure value: `sys.exit(1)` fires,
terminating the process. -/
theorem c2_counterexample :
    Linter.run false (some (Json.obj [("nbformat", Json.num 4)])) "x" "nb" emptyReg =
      Except.error (PyErr.systemExit 1) := rfl

/-- C2 amended: a document that fails to parse as JSON makes `run`
return the explicit failure value with no report; but a parsed mapping
without a list under "cells" terminates the process via `sys.exit(1)`,
and a parsed non-mapping raises `AttributeError` past the per-document
boundary. -/
theorem c2_run_failure_modes (verbose : Bool) (source : String) (path : NbPath)
    (reg : Registry) :
    (Linter.run verbose Option.none source path reg = Except.ok RunResult.failure) ∧
    (∀ kvs, (∀ xs, jlookup kvs "cells" ≠ some (Json.arr xs)) →
      Linter.run verbose (some (Json.obj kvs)) source path reg =
        Except.error (PyErr.systemExit 1)) ∧
    (∀ j, isObj j = false →
      Linter.run verbose (some j) source path reg =
        Except.error PyErr.attributeError) := by
  refine ⟨rfl, ?_, ?_⟩
  · intro kvs hnc
    have hload : loadNotebook (some (Json.obj kvs)) =
        Except.error (PyErr.systemExit 1) := by
      cases hl : jlookup kvs "cells" with
      | none => simp [loadNotebook, hl]
      | some v =>
        cases v with
        | arr xs => exact absurd hl (hnc xs)
        | null => simp [loadNotebook, hl]
        | bool b => simp [loadNotebook, hl]
        | num n => simp [loadNotebook, hl]
        | str s => simp [loadNotebook, hl]
        | obj o => simp [loadNotebook, hl]
    simp only [Linter.run, hload, err_bind]
  · intro j hj
    have hload : loadNotebook (some j) = Except.error PyErr.attributeError := by
      cases j with
      | obj kvs => exact absurd hj (by simp [isObj])
      | null => rfl
      | bool b => rfl
      | num n => rfl
      | str s => rfl
      | arr xs => rfl
    simp only [Linter.run, hload, err_bind]

/-- Witness for C2 (amended) at concrete inputs. -/
theorem c2_run_failure_modes_witness :
    (Linter.run false Option.none "x" "nb" emptyReg = Except.ok RunResult.failure) ∧
    (Linter.run false (some (Json.obj [("a", Json.num 1)])) "x" "nb" emptyReg =
      Except.error (PyErr.systemExit 1)) ∧
    (Linter.run false (some (Json.num 3)) "x" "nb" emptyReg =
      Except.error PyErr.attributeError) :=
  ⟨(c2_run_failure_modes false "x" "nb" emptyReg).1,
   (c2_run_failure_modes false "x" "nb" emptyReg).2.1 [("a", Json.num 1)]
     (fun xs h => by simp [jlookup] at h),
   (c2_run_failure_modes false "x" "nb" emptyReg).2.2 (Json.num 3) rfl⟩

lemma any_const_true {α : Type} (l : List α) :
    (l.any fun _ => true) = !l.isEmpty := by
  cases l <;> rfl

lemma truthy_eq_decide {v : PyVal} (h : v.isBool = true) :
    v.truthy = decide (v = PyVal.bool true) := by
  cases v with
  | bool b => cases b <;> rfl
  | str s => exact Bool.noConfusion h
  | int n => exact Bool.noConfusion h
  | none => exact Bool.noConfusion h

lemma filter_true_of_all {α : Type} {p : α → Bool} :
    ∀ l : List α, (∀ x ∈ l, p x = true) → l.filter p = l := by
  intro l
  induction l with
  | nil => intro _; rfl
  | cons a t ih =>
    intro h
    simp only [List.filter_cons, h a (List.mem_cons_self _ _), if_true,
      ih (fun x hx => h x (List.mem_cons_of_mem _ hx))]

lemma filterCongrMem {α : Type} {p q : α → Bool} :
    ∀ l : List α, (∀ x ∈ l, p x = q x) → l.filter p = l.filter q := by
  intro l
  induction l with
  | nil => intro _; rfl
  | cons a t ih =>
    intro h
    simp only [List.filter_cons, h a (List.mem_cons_self _ _),
      ih (fun x hx => h x (List.mem_cons_of_mem _ hx))]

/-- The CODE-scoped, ANY-condition, always-true lint of claim C3. -/
def c3Lint : Lint :=
  ⟨"always_true", Option.none, "test", Scope.code, Cond.anyC, fun _ _ _ => PyVal.bool true⟩

/-- C3 counterexample: a document with zero code cells (one markdown
cell), a CODE-scoped ANY rule whose callback always returns true.  The
claim says the aggregate verdict is vacuously true; the recorded
aggregate entry is false (`any` of an empty collection), and the run's
overall status is false as a consequence. -/
theorem c3_counterexample :
    Linter.run false (some (Json.obj [("cells", Json.arr [wCellMd])])) "" "nb"
        (singletonReg Scope.code Cond.anyC c3Lint) =
      Except.ok (RunResult.report ⟨"nb", false,
        [⟨c3Lint, false, "always_true", some "always_true", false⟩]⟩) ∧
    (LinterStatus.mk "nb" false
        [⟨c3Lint, false, "always_true", some "always_true", false⟩]).is_success = false :=
  ⟨rfl, rfl⟩

/-- C3 amended: for a CODE-scoped, ANY-condition rule whose callback
always returns true, the aggregate verdict recorded by `run` is true iff
the document has at least one code cell — in particular it is false, not
vacuously true, when the document has zero code cells. -/
theorem c3_code_any_always_true (verbose : Bool) (source : String) (path : NbPath)
    (nm : String) (msg : Option String) (sty : String)
    {kvs : List (String × Json)} {cs : List Json}
    (hc : jlookup kvs "cells" = some (Json.arr cs))
    (hwf : ∀ c ∈ cs, WFCell c = true) :
    Linter.run verbose (some (Json.obj kvs)) source path
        (singletonReg Scope.code Cond.anyC
          ⟨nm, msg, sty, Scope.code, Cond.anyC, fun _ _ _ => PyVal.bool true⟩) =
      Except.ok (RunResult.report ⟨path, verbose,
        groupMembers ⟨nm, msg, sty, Scope.code, Cond.anyC, fun _ _ _ => PyVal.bool true⟩
            path (pyEnum 0 cs) ++
          [⟨⟨nm, msg, sty, Scope.code, Cond.anyC, fun _ _ _ => PyVal.bool true⟩,
            cs.any isCodeCell, nm, some nm, false⟩]⟩) := by
  have hb : BoolLint
      (⟨nm, msg, sty, Scope.code, Cond.anyC, fun _ _ _ => PyVal.bool true⟩ : Lint) :=
    fun _ _ _ => rfl
  rw [run_singleton verbose source path Scope.code Cond.anyC _ (by simp) hc hwf hb]
  have hag : aggVerdict
      (⟨nm, msg, sty, Scope.code, Cond.anyC, fun _ _ _ => PyVal.bool true⟩ : Lint)
      path cs = cs.any isCodeCell := by
    rw [aggVerdict_anyC _ path cs rfl]
    show (selectedCells Scope.code cs).any (fun _ => true) = cs.any isCodeCell
    rw [any_const_true]
    rw [show selectedCells Scope.code cs = cs.filter isCodeCell from rfl]
    rw [filter_isEmpty_not_any, Bool.not_not]
  simp only [cellLintEntries, hag]

/-- Witness for C3 (amended) at a concrete mixed document. -/
theorem c3_code_any_always_true_witness :
    Linter.run false (some (Json.obj [("cells", Json.arr [wCellMd, wCellCode])])) "" "nb"
        (singletonReg Scope.code Cond.anyC c3Lint) =
      Except.ok (RunResult.report ⟨"nb", false,
        [⟨c3Lint, true, "always_true__cell_1", some "always_true", true⟩,
         ⟨c3Lint, true, "always_true", some "always_true", false⟩]⟩) :=
  @c3_code_any_always_true false "" "nb" "always_true" Option.none "test"
    [("cells", Json.arr [wCellMd, wCellCode])] [wCellMd, wCellCode] rfl (by decide)

/-- A FILE-scoped rule registered under condition ALL (claim C4). -/
def c4Lint : Lint :=
  ⟨"file_all_rule", Option.none, "test", Scope.file, Cond.allC, fun _ _ _ => PyVal.bool true⟩

/-- C4 counterexample: a registry whose only rule is registered under
scope FILE with condition ALL.  The claim says `run` invokes it once and
records exactly one entry regardless of the condition; the produced
report has zero entries — the rule is never invoked, because `run` only
iterates the `(FILE, ANY)` slot. -/
theorem c4_counterexample :
    Linter.run false (some wEmptyDoc) "src" "nb"
        (singletonReg Scope.file Cond.allC c4Lint) =
      Except.ok (RunResult.report ⟨"nb", false, []⟩) := rfl

/-- C4 amended: for every rule registered under `(FILE, ANY)`, `run`
records exactly one status entry, not a group member, holding the
callback's verdict on (raw source, parsed document, path), in
registration order; rules registered under `(FILE, ALL)` are never
invoked and contribute no entry (the registry's `(FILE, ALL)` slot is
unconstrained below). -/
theorem c4_file_rules (verbose : Bool) (source : String) (path : NbPath)
    (reg : Registry) {kvs : List (String × Json)} {cs : List Json}
    (hc : jlookup kvs "cells" = some (Json.arr cs))
    (hwf : ∀ c ∈ cs, WFCell c = true)
    (hreg : RegistryBool reg)
    (hcell : ∀ co, reg Scope.cells co = [] ∧ reg Scope.code co = [] ∧
      reg Scope.text co = []) :
    Linter.run verbose (some (Json.obj kvs)) source path reg =
      Except.ok (RunResult.report ⟨path, verbose,
        (reg Scope.file Cond.anyC).map (fileEntry source (Json.obj kvs) path)⟩) := by
  rw [run_spec verbose source path reg hc hwf hreg]
  simp [expectedEntries, (hcell Cond.anyC).1, (hcell Cond.anyC).2.1,
    (hcell Cond.anyC).2.2, (hcell Cond.allC).1, (hcell Cond.allC).2.1,
    (hcell Cond.allC).2.2]

/-- A registry with one rule under `(FILE, ANY)` and one under
`(FILE, ALL)`. -/
def c4Reg : Registry := fun s c =>
  match s, c with
  | Scope.file, Cond.anyC => [wLintFileTrue]
  | Scope.file, Cond.allC => [c4Lint]
  | _, _ => []

/-- Witness for C4 (amended): the `(FILE, ANY)` rule yields its single
entry; the `(FILE, ALL)` rule yields none. -/
theorem c4_file_rules_witness :
    Linter.run false (some wEmptyDoc) "" "nb" c4Reg =
      Except.ok (RunResult.report ⟨"nb", false,
        [⟨wLintFileTrue, true, "always_true", Option.none, false⟩]⟩) :=
  @c4_file_rules false "" "nb" c4Reg [("cells", Json.arr [])] [] rfl (by decide)
    (by
      intro sc co l hl
      cases sc <;> cases co <;> simp [c4Reg] at hl <;> subst hl <;> intro s c p <;> rfl)
    (by intro co; cases co <;> exact ⟨rfl, rfl, rfl⟩)

/-- A CELLS-scoped rule whose callback returns the non-boolean string
"yes" (claim C5). -/
def c5Lint : Lint :=
  ⟨"my_rule", Option.none, "test", Scope.cells, Cond.anyC, fun _ _ _ => PyVal.str "yes"⟩

/-- C5 counterexample: `add_entry` on the non-boolean verdict of the
rule named "my_rule" raises a `TypeError` whose message carries the
offending value — and the message does not contain the rule's name, so
the error does not identify the offending rule by name as claimed. -/
theorem c5_counterexample :
    (LinterStatus.mk "nb" false []).add_entry c5Lint (PyVal.str "yes")
        Option.none Option.none false =
      Except.error (PyErr.typeError "Lint status must return Boolean, got: yes") ∧
    occursIn "my_rule" "Lint status must return Boolean, got: yes" = false :=
  ⟨rfl, by decide⟩

/-- C5 amended: when a rule callback returns a non-boolean verdict, the
run aborts fatally at the point the entry is added — `add_entry` raises
a `TypeError` rather than coercing, appending no entry, and `run`
propagates the error; the descriptive message identifies the offending
value (not the rule's name). -/
theorem c5_nonbool_fatal :
    (∀ (st : LinterStatus) (lint : Lint) (v : PyVal), v.isBool = false →
      ∀ nm g ig, st.add_entry lint v nm g ig =
        Except.error (PyErr.typeError
          ("Lint status must return Boolean, got: " ++ v.pyStr))) ∧
    (∀ (verbose : Bool) (source : String) (path : NbPath) (nm : String)
        (msg : Option String) (sty : String) (s : String) kvs c cs,
      jlookup kvs "cells" = some (Json.arr (c :: cs)) → WFCell c = true →
      Linter.run verbose (some (Json.obj kvs)) source path
          (singletonReg Scope.cells Cond.anyC
            ⟨nm, msg, sty, Scope.cells, Cond.anyC, fun _ _ _ => PyVal.str s⟩) =
        Except.error (PyErr.typeError
          ("Lint status must return Boolean, got: " ++ s))) := by
  constructor
  · intro st lint v hv nm g ig
    cases v with
    | bool b => exact Bool.noConfusion hv
    | str s => rfl
    | int n => rfl
    | none => rfl
  · intro verbose source path nm msg sty s kvs c cs hc hwfc
    have hload : loadNotebook (some (Json.obj kvs)) =
        Except.ok (some (Json.obj kvs)) := by
      simp [loadNotebook, hc]
    have htr : pyTruthy (some (Json.obj kvs)) = true := by
      simp [pyTruthy, jlookup_isEmpty_false hc]
    have hgc : getCells (Json.obj kvs) = Except.ok (c :: cs) := by
      simp [getCells, hc]
    have hss : ∀ ct, scopeSkips Scope.cells ct = false := by
      intro ct
      cases ct with
      | none => rfl
      | some v => cases v <;> rfl
    have hgrp : ∀ st : LinterStatus,
        runGroupCells ⟨nm, msg, sty, Scope.cells, Cond.anyC, fun _ _ _ => PyVal.str s⟩
          path (pyEnum 0 (c :: cs)) st =
        Except.error (PyErr.typeError
          ("Lint status must return Boolean, got: " ++ s)) := by
      intro st
      simp only [pyEnum, runGroupCells, cellGetType_of_WF hwfc, ok_bind, hss,
        Bool.false_eq_true, if_false, cellJoinSource_of_WF hwfc,
        LinterStatus.add_entry, PyVal.pyStr, err_bind]
    simp only [Linter.run, hload, ok_bind, htr, Bool.not_true, Bool.false_eq_true,
      if_false, runFileLints, runScopes, runConds, runLintList, runLintGroup,
      hgc, ok_bind, hgrp, err_bind]

/-- Witness for C5 (amended) at concrete inputs: the raised message for
verdict "yes", and the aborted run. -/
theorem c5_nonbool_fatal_witness :
    ((LinterStatus.mk "nb" false []).add_entry c5Lint (PyVal.str "yes")
        Option.none Option.none true =
      Except.error (PyErr.typeError "Lint status must return Boolean, got: yes")) ∧
    (Linter.run false (some (Json.obj [("cells", Json.arr [wCellMd])])) "" "nb"
        (singletonReg Scope.cells Cond.anyC
          ⟨"my_rule", Option.none, "test", Scope.cells, Cond.anyC,
            fun _ _ _ => PyVal.str "yes"⟩) =
      Except.error (PyErr.typeError "Lint status must return Boolean, got: yes")) :=
  ⟨c5_nonbool_fatal.1 (LinterStatus.mk "nb" false []) c5Lint (PyVal.str "yes") rfl
      Option.none Option.none true,
   c5_nonbool_fatal.2 false "" "nb" "my_rule" Option.none "test" "yes"
     [("cells", Json.arr [wCellMd])] wCellMd [] rfl rfl⟩

/-- C6: for a TEXT-scoped, ALL-condition rule with a bool-honoring
callback, the aggregate verdict recorded by `run` is true iff the
callback returns true on every prose (markdown) cell of the document;
`all` over the empty selection makes it vacuously true when the document
has zero prose cells. -/
theorem c6_text_all (verbose : Bool) (source : String) (path : NbPath)
    (nm : String) (msg : Option String) (sty : String)
    (cb : String → Json → NbPath → PyVal)
    (hb : ∀ s c p, (cb s c p).isBool = true)
    {kvs : List (String × Json)} {cs : List Json}
    (hc : jlookup kvs "cells" = some (Json.arr cs))
    (hwf : ∀ c ∈ cs, WFCell c = true) :
    Linter.run verbose (some (Json.obj kvs)) source path
        (singletonReg Scope.text Cond.allC ⟨nm, msg, sty, Scope.text, Cond.allC, cb⟩) =
      Except.ok (RunResult.report ⟨path, verbose,
        groupMembers ⟨nm, msg, sty, Scope.text, Cond.allC, cb⟩ path (pyEnum 0 cs) ++
          [⟨⟨nm, msg, sty, Scope.text, Cond.allC, cb⟩,
            (cs.filter isTextCell).all fun c =>
              decide (cb (cellText c) c path = PyVal.bool true),
            nm, some nm, false⟩]⟩) := by
  have hbl : BoolLint (⟨nm, msg, sty, Scope.text, Cond.allC, cb⟩ : Lint) := hb
  rw [run_singleton verbose source path Scope.text Cond.allC _ (by simp) hc hwf hbl]
  have hag : aggVerdict (⟨nm, msg, sty, Scope.text, Cond.allC, cb⟩ : Lint) path cs =
      (cs.filter isTextCell).all fun c =>
        decide (cb (cellText c) c path = PyVal.bool true) := by
    rw [aggVerdict_allC _ path cs rfl]
    rw [show selectedCells (⟨nm, msg, sty, Scope.text, Cond.allC, cb⟩ : Lint).scope cs =
      cs.filter isTextCell from rfl]
    exact all_congr_mem _ _ _ (fun x _ => truthy_eq_decide (hb (cellText x) x path))
  simp only [cellLintEntries, hag]

/-- The TEXT-scoped ALL rule used in the C6 witness: passes on cells
containing the substring "hello". -/
def c6Lint : Lint :=
  ⟨"contains_hello", Option.none, "test", Scope.text, Cond.allC,
    fun s _ _ => PyVal.bool (occursIn "hello" s)⟩

/-- Witness for C6 at a concrete mixed document: the only markdown cell
contains "hello", so the member entry and the aggregate are true. -/
theorem c6_text_all_witness :
    Linter.run false (some (Json.obj [("cells", Json.arr [wCellMd, wCellCode])])) "" "nb"
        (singletonReg Scope.text Cond.allC c6Lint) =
      Except.ok (RunResult.report ⟨"nb", false,
        [⟨c6Lint, true, "contains_hello__cell_0", some "contains_hello", true⟩,
         ⟨c6Lint, true, "contains_hello", some "contains_hello", false⟩]⟩) :=
  @c6_text_all false "" "nb" "contains_hello" Option.none "test"
    (fun s _ _ => PyVal.bool (occursIn "hello" s)) (fun _ _ _ => rfl)
    [("cells", Json.arr [wCellMd, wCellCode])] [wCellMd, wCellCode] rfl (by decide)

/-- C7: for a cell-scoped rule (scope CELLS, CODE or TEXT), the status
report of `run` holds exactly one member entry per cell selected by the
rule's scope filter (CELLS: every cell; CODE: code cells; TEXT: prose
cells), and no entry for non-matching cells: the number of member
entries equals the number of selected cells. -/
theorem c7_member_count (verbose : Bool) (source : String) (path : NbPath)
    (nm : String) (msg : Option String) (sty : String) (sc : Scope) (co : Cond)
    (cb : String → Json → NbPath → PyVal)
    (hsc : sc = Scope.cells ∨ sc = Scope.code ∨ sc = Scope.text)
    (hb : ∀ s c p, (cb s c p).isBool = true)
    {kvs : List (String × Json)} {cs : List Json}
    (hc : jlookup kvs "cells" = some (Json.arr cs))
    (hwf : ∀ c ∈ cs, WFCell c = true) :
    Linter.run verbose (some (Json.obj kvs)) source path
        (singletonReg sc co ⟨nm, msg, sty, sc, co, cb⟩) =
      Except.ok (RunResult.report ⟨path, verbose,
        cellLintEntries path cs ⟨nm, msg, sty, sc, co, cb⟩⟩) ∧
    ((cellLintEntries path cs ⟨nm, msg, sty, sc, co, cb⟩).filter
        fun e => e.is_group_entry).length = (selectedCells sc cs).length := by
  have hbl : BoolLint (⟨nm, msg, sty, sc, co, cb⟩ : Lint) := hb
  have hnf : sc ≠ Scope.file := by
    rcases hsc with h | h | h <;> subst h <;> simp
  constructor
  · exact run_singleton verbose source path sc co _ hnf hc hwf hbl
  · simp only [cellLintEntries, List.filter_append, List.filter_cons,
      List.filter_nil]
    rw [filter_true_of_all (groupMembers ⟨nm, msg, sty, sc, co, cb⟩ path (pyEnum 0 cs))
      (by
        intro x hx
        simp only [groupMembers, List.mem_map] at hx
        obtain ⟨p, _, rfl⟩ := hx
        rfl)]
    simp only [groupMembers, List.length_append, List.length_map]
    rw [← matchedPairs_snd sc 0 cs, List.length_map]
    simp

/-- Witness for C7 at a concrete mixed document with a CODE rule: one
member entry for the one code cell among two cells. -/
theorem c7_member_count_witness :
    (Linter.run false (some (Json.obj [("cells", Json.arr [wCellMd, wCellCode])])) "" "nb"
        (singletonReg Scope.code Cond.allC
          ⟨"code_rule", Option.none, "test", Scope.code, Cond.allC,
            fun _ _ _ => PyVal.bool true⟩) =
      Except.ok (RunResult.report ⟨"nb", false,
        cellLintEntries "nb" [wCellMd, wCellCode]
          ⟨"code_rule", Option.none, "test", Scope.code, Cond.allC,
            fun _ _ _ => PyVal.bool true⟩⟩)) ∧
    ((cellLintEntries "nb" [wCellMd, wCellCode]
        ⟨"code_rule", Option.none, "test", Scope.code, Cond.allC,
          fun _ _ _ => PyVal.bool true⟩).filter
      fun e => e.is_group_entry).length =
      (selectedCells Scope.code [wCellMd, wCellCode]).length :=
  @c7_member_count false "" "nb" "code_rule" Option.none "test" Scope.code Cond.allC
    (fun _ _ _ => PyVal.bool true) (Or.inr (Or.inl rfl)) (fun _ _ _ => rfl)
    [("cells", Json.arr [wCellMd, wCellCode])] [wCellMd, wCellCode] rfl (by decide)

/-- C8: the entries of a report produced by `run` are exactly, in order:
one entry per `(FILE, ANY)` rule in registration order; then, for each
scope `CELLS`, `CODE`, `TEXT` and each condition `ANY`, `ALL`, for each
rule registered under that key in registration order, the rule's member
entries in document cell order followed immediately by its single
aggregate entry (`is_group_entry = false`, group = rule name) — the
aggregate comes after all of that rule's members and before any entry of
a later rule. -/
theorem c8_entry_order (verbose : Bool) (source : String) (path : NbPath)
    (reg : Registry) {kvs : List (String × Json)} {cs : List Json}
    (hc : jlookup kvs "cells" = some (Json.arr cs))
    (hwf : ∀ c ∈ cs, WFCell c = true)
    (hreg : RegistryBool reg) :
    Linter.run verbose (some (Json.obj kvs)) source path reg =
      Except.ok (RunResult.report
        ⟨path, verbose, expectedEntries reg source (Json.obj kvs) path cs⟩) :=
  run_spec verbose source path reg hc hwf hreg

/-- A registry with a file rule and two cell-scoped rules for the C8
witness. -/
def c8Reg : Registry := fun s c =>
  match s, c with
  | Scope.file, Cond.anyC => [wLintFileTrue]
  | Scope.text, Cond.allC => [c6Lint]
  | Scope.code, Cond.anyC => [c3Lint]
  | _, _ => []

/-- Witness for C8: a concrete two-cell document and three rules; the
report lists the file entry, then the CODE/ANY rule's member and
aggregate, then the TEXT/ALL rule's member and aggregate. -/
theorem c8_entry_order_witness :
    Linter.run false (some (Json.obj [("cells", Json.arr [wCellMd, wCellCode])]))
        "src" "nb" c8Reg =
      Except.ok (RunResult.report ⟨"nb", false,
        [⟨wLintFileTrue, true, "always_true", Option.none, false⟩,
         ⟨c3Lint, true, "always_true__cell_1", some "always_true", true⟩,
         ⟨c3Lint, true, "always_true", some "always_true", false⟩,
         ⟨c6Lint, true, "contains_hello__cell_0", some "contains_hello", true⟩,
         ⟨c6Lint, true, "contains_hello", some "contains_hello", false⟩]⟩) :=
  @c8_entry_order false "src" "nb" c8Reg [("cells", Json.arr [wCellMd, wCellCode])]
    [wCellMd, wCellCode] rfl (by decide)
    (by
      intro sc co l hl
      cases sc <;> cases co <;> simp [c8Reg] at hl <;> subst hl <;> intro s c p <;> rfl)

/-- C9: the name of each member entry is `<rule>__cell_<index>` where
the index is the cell's position among all cells of the document, before
scope filtering: for a CODE- or TEXT-scoped rule the member names embed
the document positions of the matching cells (which need not start at 0
nor be contiguous). -/
theorem c9_member_names (verbose : Bool) (source : String) (path : NbPath)
    (nm : String) (msg : Option String) (sty : String) (sc : Scope) (co : Cond)
    (cb : String → Json → NbPath → PyVal)
    (hsc : sc = Scope.code ∨ sc = Scope.text)
    (hb : ∀ s c p, (cb s c p).isBool = true)
    {kvs : List (String × Json)} {cs : List Json}
    (hc : jlookup kvs "cells" = some (Json.arr cs))
    (hwf : ∀ c ∈ cs, WFCell c = true) :
    Linter.run verbose (some (Json.obj kvs)) source path
        (singletonReg sc co ⟨nm, msg, sty, sc, co, cb⟩) =
      Except.ok (RunResult.report ⟨path, verbose,
        cellLintEntries path cs ⟨nm, msg, sty, sc, co, cb⟩⟩) ∧
    ((cellLintEntries path cs ⟨nm, msg, sty, sc, co, cb⟩).filter
        fun e => e.is_group_entry).map (fun e => e.name) =
      ((pyEnum 0 cs).filter fun p => isScopeCell sc p.2).map
        (fun p => nm ++ "__cell_" ++ toString p.1) := by
  have hbl : BoolLint (⟨nm, msg, sty, sc, co, cb⟩ : Lint) := hb
  have hnf : sc ≠ Scope.file := by
    rcases hsc with h | h <;> subst h <;> simp
  constructor
  · exact run_singleton verbose source path sc co _ hnf hc hwf hbl
  · simp only [cellLintEntries, List.filter_append, List.filter_cons,
      List.filter_nil]
    rw [filter_true_of_all (groupMembers ⟨nm, msg, sty, sc, co, cb⟩ path (pyEnum 0 cs))
      (by
        intro x hx
        simp only [groupMembers, List.mem_map] at hx
        obtain ⟨p, _, rfl⟩ := hx
        rfl)]
    simp only [groupMembers, List.map_map, List.append_nil]
    rw [show matchedPairs (⟨nm, msg, sty, sc, co, cb⟩ : Lint).scope (pyEnum 0 cs) =
      (pyEnum 0 cs).filter (fun p => !scopeSkips sc (cellTypeOf p.2)) from rfl]
    rw [filterCongrMem (pyEnum 0 cs) (fun p _ => scopeSkips_not sc p.2)]
    simp [memberEntry]

/-- Witness for C9: a four-cell document alternating markdown and code;
the CODE rule's member names embed the document indices 1 and 3 —
non-contiguous and not starting at 0. -/
theorem c9_member_names_witness :
    (Linter.run false
        (some (Json.obj [("cells", Json.arr [wCellMd, wCellCode, wCellMd, wCellCode])]))
        "" "nb"
        (singletonReg Scope.code Cond.anyC
          ⟨"code_rule", Option.none, "test", Scope.code, Cond.anyC,
            fun _ _ _ => PyVal.bool true⟩) =
      Except.ok (RunResult.report ⟨"nb", false,
        cellLintEntries "nb" [wCellMd, wCellCode, wCellMd, wCellCode]
          ⟨"code_rule", Option.none, "test", Scope.code, Cond.anyC,
            fun _ _ _ => PyVal.bool true⟩⟩)) ∧
    ((cellLintEntries "nb" [wCellMd, wCellCode, wCellMd, wCellCode]
        ⟨"code_rule", Option.none, "test", Scope.code, Cond.anyC,
          fun _ _ _ => PyVal.bool true⟩).filter
      fun e => e.is_group_entry).map (fun e => e.name) =
      ((pyEnum 0 [wCellMd, wCellCode, wCellMd, wCellCode]).filter
        fun p => isScopeCell Scope.code p.2).map
        (fun p => "code_rule" ++ "__cell_" ++ toString p.1) :=
  @c9_member_names false "" "nb" "code_rule" Option.none "test" Scope.code Cond.anyC
    (fun _ _ _ => PyVal.bool true) (Or.inl rfl) (fun _ _ _ => rfl)
    [("cells", Json.arr [wCellMd, wCellCode, wCellMd, wCellCode])]
    [wCellMd, wCellCode, wCellMd, wCellCode] rfl (by decide)

/-- The top-level line of one rendered root entry (the `base` string of
the loop body in `__str__`). -/
def rootLine (entry : LintStatusEntry) : String :=
  formatStatus entry ++ " | " ++ entry.lint.style ++ "::" ++ entry.name ++
    (match entry.lint.message with
     | some m => if m.isEmpty then "" else " | " ++ m
     | Option.none => "") ++ "\n"

lemma foldl_groupStep_members (g : Option String) :
    ∀ (es : List LintStatusEntry) (cur : List LintStatusEntry),
      (∀ e ∈ es, e.is_group_entry = true → e.group = g) →
      es.foldl groupStep [(g, cur)] =
        [(g, cur ++ es.filter fun e => e.is_group_entry)] := by
  intro es
  induction es with
  | nil => intro cur _; simp
  | cons e rest ih =>
    intro cur h
    simp only [List.foldl_cons, groupStep]
    cases hg : e.is_group_entry with
    | false =>
      rw [if_neg Bool.false_ne_true,
        ih cur (fun x hx => h x (List.mem_cons_of_mem _ hx))]
      simp [List.filter_cons, hg]
    | true =>
      have hgr : e.group = g := h e (List.mem_cons_self _ _) hg
      rw [if_pos rfl]
      rw [show addToGroups [(g, cur)] e = [(g, cur ++ [e])] from by
        simp [addToGroups, hgr]]
      rw [ih (cur ++ [e]) (fun x hx => h x (List.mem_cons_of_mem _ hx))]
      simp [List.filter_cons, hg, List.append_assoc]

lemma mkGroups_single_key (g : Option String) :
    ∀ es : List LintStatusEntry,
      (∀ e ∈ es, e.is_group_entry = true → e.group = g) →
      mkGroups true es =
        if (es.filter fun e => e.is_group_entry).isEmpty then []
        else [(g, es.filter fun e => e.is_group_entry)] := by
  intro es
  induction es with
  | nil => intro _; simp [mkGroups]
  | cons e rest ih =>
    intro h
    simp only [mkGroups, if_true, List.foldl_cons, groupStep] at *
    cases hg : e.is_group_entry with
    | false =>
      rw [if_neg Bool.false_ne_true]
      rw [ih (fun x hx => h x (List.mem_cons_of_mem _ hx))]
      simp [List.filter_cons, hg]
    | true =>
      have hgr : e.group = g := h e (List.mem_cons_self _ _) hg
      rw [if_pos rfl]
      rw [show addToGroups [] e = [(g, [e])] from by simp [addToGroups, hgr]]
      rw [foldl_groupStep_members g rest [e]
        (fun x hx => h x (List.mem_cons_of_mem _ hx))]
      simp [List.filter_cons, hg]

/-- A registry with exactly two rules, both under `(CELLS, ANY)`. -/
def pairReg (r1 r2 : Lint) : Registry := fun s c =>
  match s, c with
  | Scope.cells, Cond.anyC => [r1, r2]
  | _, _ => []

lemma pyEnum_ne_nil {cs : List Json} (h : cs ≠ []) (i : Nat) : pyEnum i cs ≠ [] := by
  cases cs with
  | nil => exact absurd rfl h
  | cons c rest => simp [pyEnum]

/-- C10: verbose rendering groups member entries by the group key alone
(the rule's name): for two distinct rules sharing one name, both
registered under `(CELLS, ANY)`, the groups dict built by `__str__` maps
that shared name to the merged member entries of both rules, and the
child block rendered beneath each of the two aggregate entries lists the
merged members of both rules, not only the members of that aggregate's
own rule. -/
theorem c10_shared_name_merges (source : String) (path : NbPath) (r1 r2 : Lint)
    (h1s : r1.scope = Scope.cells) (h1c : r1.cond = Cond.anyC)
    (h2s : r2.scope = Scope.cells)
    (hnm : r2.name = r1.name)
    (hb1 : BoolLint r1) (hb2 : BoolLint r2)
    {kvs : List (String × Json)} {cs : List Json}
    (hc : jlookup kvs "cells" = some (Json.arr cs))
    (hwf : ∀ c ∈ cs, WFCell c = true) (hne : cs ≠ []) :
    Linter.run true (some (Json.obj kvs)) source path (pairReg r1 r2) =
      Except.ok (RunResult.report ⟨path, true,
        cellLintEntries path cs r1 ++ cellLintEntries path cs r2⟩) ∧
    groupsFind (mkGroups true (cellLintEntries path cs r1 ++ cellLintEntries path cs r2))
        (some r1.name) =
      some (groupMembers r1 path (pyEnum 0 cs) ++ groupMembers r2 path (pyEnum 0 cs)) ∧
    renderRoot true (mkGroups true (cellLintEntries path cs r1 ++ cellLintEntries path cs r2))
        ⟨r1, aggVerdict r1 path cs, r1.name, some r1.name, false⟩ =
      rootLine ⟨r1, aggVerdict r1 path cs, r1.name, some r1.name, false⟩ ++
        "[All results]\n" ++
        strConcat ((groupMembers r1 path (pyEnum 0 cs) ++
          groupMembers r2 path (pyEnum 0 cs)).map childLine) ++ "\n" ∧
    renderRoot true (mkGroups true (cellLintEntries path cs r1 ++ cellLintEntries path cs r2))
        ⟨r2, aggVerdict r2 path cs, r2.name, some r2.name, false⟩ =
      rootLine ⟨r2, aggVerdict r2 path cs, r2.name, some r2.name, false⟩ ++
        "[All results]\n" ++
        strConcat ((groupMembers r1 path (pyEnum 0 cs) ++
          groupMembers r2 path (pyEnum 0 cs)).map childLine) ++ "\n" := by
  have hreg : RegistryBool (pairReg r1 r2) := by
    intro sc co l hl
    cases sc <;> cases co <;> simp [pairReg] at hl
    rcases hl with rfl | rfl
    · exact hb1
    · exact hb2
  have hrun : Linter.run true (some (Json.obj kvs)) source path (pairReg r1 r2) =
      Except.ok (RunResult.report ⟨path, true,
        cellLintEntries path cs r1 ++ cellLintEntries path cs r2⟩) := by
    rw [run_spec true source path _ hc hwf hreg]
    simp [expectedEntries, pairReg]
  have hm1 : ∀ x ∈ groupMembers r1 path (pyEnum 0 cs),
      x.is_group_entry = true ∧ x.group = some r1.name := by
    intro x hx
    simp only [groupMembers, List.mem_map] at hx
    obtain ⟨p, _, rfl⟩ := hx
    exact ⟨rfl, rfl⟩
  have hm2 : ∀ x ∈ groupMembers r2 path (pyEnum 0 cs),
      x.is_group_entry = true ∧ x.group = some r1.name := by
    intro x hx
    simp only [groupMembers, List.mem_map] at hx
    obtain ⟨p, _, rfl⟩ := hx
    exact ⟨rfl, by simp [memberEntry, hnm]⟩
  have hfilter : (cellLintEntries path cs r1 ++ cellLintEntries path cs r2).filter
      (fun e => e.is_group_entry) =
      groupMembers r1 path (pyEnum 0 cs) ++ groupMembers r2 path (pyEnum 0 cs) := by
    simp only [cellLintEntries, List.filter_append, List.filter_cons, List.filter_nil]
    rw [filter_true_of_all (groupMembers r1 path (pyEnum 0 cs))
      (fun x hx => (hm1 x hx).1)]
    rw [filter_true_of_all (groupMembers r2 path (pyEnum 0 cs))
      (fun x hx => (hm2 x hx).1)]
    simp
  have hkey : ∀ e ∈ cellLintEntries path cs r1 ++ cellLintEntries path cs r2,
      e.is_group_entry = true → e.group = some r1.name := by
    intro e he hg
    simp only [cellLintEntries, List.mem_append, List.mem_cons, List.mem_singleton] at he
    rcases he with (hm | he) | (hm | he)
    · exact (hm1 e hm).2
    · rcases he with rfl | he
      · exact Bool.noConfusion hg
      · simp at he
    · exact (hm2 e hm).2
    · rcases he with rfl | he
      · exact Bool.noConfusion hg
      · simp at he
  have hm1ne : groupMembers r1 path (pyEnum 0 cs) ≠ [] := by
    simp only [groupMembers, h1s]
    have : matchedPairs Scope.cells (pyEnum 0 cs) = pyEnum 0 cs := by
      unfold matchedPairs
      apply filter_true_of_all
      intro p _
      rw [scopeSkips_not]
      rfl
    rw [this]
    simp only [ne_eq, List.map_eq_nil_iff]
    exact pyEnum_ne_nil hne 0
  have hgroups : mkGroups true
      (cellLintEntries path cs r1 ++ cellLintEntries path cs r2) =
      [(some r1.name,
        groupMembers r1 path (pyEnum 0 cs) ++ groupMembers r2 path (pyEnum 0 cs))] := by
    rw [mkGroups_single_key (some r1.name) _ hkey, hfilter]
    rw [if_neg ?hne]
    case hne =>
      cases hh : groupMembers r1 path (pyEnum 0 cs) with
      | nil => exact absurd hh hm1ne
      | cons a t => simp
  have hfind : groupsFind
      (mkGroups true (cellLintEntries path cs r1 ++ cellLintEntries path cs r2))
      (some r1.name) =
      some (groupMembers r1 path (pyEnum 0 cs) ++ groupMembers r2 path (pyEnum 0 cs)) := by
    rw [hgroups]
    simp [groupsFind]
  refine ⟨hrun, hfind, ?_, ?_⟩
  · simp only [renderRoot, hfind]
    simp [rootLine, String.append_assoc]
  · have hfind2 : groupsFind
        (mkGroups true (cellLintEntries path cs r1 ++ cellLintEntries path cs r2))
        (some r2.name) =
        some (groupMembers r1 path (pyEnum 0 cs) ++ groupMembers r2 path (pyEnum 0 cs)) := by
      rw [hnm]
      exact hfind
    simp only [renderRoot, hfind2]
    simp [rootLine, String.append_assoc]

/-- First of two same-named rules for the C10 witness. -/
def c10LintA : Lint :=
  ⟨"shared", Option.none, "styleA", Scope.cells, Cond.anyC, fun _ _ _ => PyVal.bool true⟩

/-- Second rule sharing the name "shared", otherwise distinct. -/
def c10LintB : Lint :=
  ⟨"shared", some "B message", "styleB", Scope.cells, Cond.anyC,
    fun _ _ _ => PyVal.bool false⟩

/-- Witness for C10 at a one-cell document and two distinct same-named
rules. -/
theorem c10_shared_name_merges_witness :
    Linter.run true (some (Json.obj [("cells", Json.arr [wCellMd])])) "" "nb"
        (pairReg c10LintA c10LintB) =
      Except.ok (RunResult.report ⟨"nb", true,
        cellLintEntries "nb" [wCellMd] c10LintA ++
          cellLintEntries "nb" [wCellMd] c10LintB⟩) ∧
    groupsFind (mkGroups true (cellLintEntries "nb" [wCellMd] c10LintA ++
        cellLintEntries "nb" [wCellMd] c10LintB)) (some "shared") =
      some (groupMembers c10LintA "nb" (pyEnum 0 [wCellMd]) ++
        groupMembers c10LintB "nb" (pyEnum 0 [wCellMd])) ∧
    renderRoot true (mkGroups true (cellLintEntries "nb" [wCellMd] c10LintA ++
        cellLintEntries "nb" [wCellMd] c10LintB))
        ⟨c10LintA, aggVerdict c10LintA "nb" [wCellMd], "shared", some "shared", false⟩ =
      rootLine ⟨c10LintA, aggVerdict c10LintA "nb" [wCellMd], "shared", some "shared",
          false⟩ ++ "[All results]\n" ++
        strConcat ((groupMembers c10LintA "nb" (pyEnum 0 [wCellMd]) ++
          groupMembers c10LintB "nb" (pyEnum 0 [wCellMd])).map childLine) ++ "\n" ∧
    renderRoot true (mkGroups true (cellLintEntries "nb" [wCellMd] c10LintA ++
        cellLintEntries "nb" [wCellMd] c10LintB))
        ⟨c10LintB, aggVerdict c10LintB "nb" [wCellMd], "shared", some "shared", false⟩ =
      rootLine ⟨c10LintB, aggVerdict c10LintB "nb" [wCellMd], "shared", some "shared",
          false⟩ ++ "[All results]\n" ++
        strConcat ((groupMembers c10LintA "nb" (pyEnum 0 [wCellMd]) ++
          groupMembers c10LintB "nb" (pyEnum 0 [wCellMd])).map childLine) ++ "\n" :=
  @c10_shared_name_merges "" "nb" c10LintA c10LintB rfl rfl rfl rfl
    (fun _ _ _ => rfl) (fun _ _ _ => rfl)
    [("cells", Json.arr [wCellMd])] [wCellMd] rfl (by decide) (by simp)
